import Mathlib

/-!
Verification of `generate_icons.py`: a shallow embedding of the icon renderer
(`create_icon`) and the batch driver (module-level code, lines 40–52), together
with theorems settling the specification's claims.

Modelling conventions.

* Pixels are exact `Nat` channel values; a canvas is a total function from
  (x, y) coordinates to a pixel.  Only coordinates `x < size`, `y < size` are
  part of the visible image; PIL silently clips drawing outside it, which the
  function model absorbs (theorems only ever observe in-range coordinates).
* Python arithmetic on floats (`size * 0.15`, `y / size`, …) is modelled
  exactly; every value this program truncates with `int()` is nonnegative,
  so `int()` is the floor.  For five of the six decimal constants (0.15,
  0.2, 0.3, 0.5, 0.8) and for both gradient channels, the binary64
  evaluation of the truncated expression coincides with the exact rational
  floor at every realistic argument (those doubles sit close enough to
  `p / q` that the product never crosses an integer the exact value does
  not), and these are modelled as `Nat` divisions.  The constant `0.7` is
  the exception: its binary64 value is `6305039478318694 / 2 ^ 53`,
  strictly below `7 / 10` (ten times it is `7 * 2 ^ 53 - 4`), and
  `int(inner * 0.7)` falls below the exact `⌊7 * inner / 10⌋` at some
  arguments — first at `inner = 90`, which is exactly `size = 128`, one of
  the three sizes the program renders.  `line3_y` therefore models the full
  binary64 product rounding (53-bit significand, round to nearest, ties to
  even — `round53` below) instead of an exact floor.
* `ImageDraw.rectangle` paints the inclusive bounding box `[x0, y0, x1, y1]`.
  With `outline=...` and `width ≥ 2` Pillow paints four inclusive strips
  (top, bottom, left, right), which `rectOutline` reproduces.
* `ImageDraw.line` on a horizontal segment of width `w` paints a `w`-pixel
  tall band around the segment's row; the claims never depend on the exact
  vertical placement of that band, only on its colour being opaque white and
  on the segment endpoints, which are modelled exactly.
* The filesystem is a list of named entries (directories, and files holding a
  rendered image); `os.path.exists` is existence of an entry of either kind,
  `os.makedirs` fails iff an entry of that name exists, and `img.save` into
  `dir/name` fails unless `dir` is a directory entry, overwriting any file
  entry of the same path.  `print` output is collected as a list of lines.
-/

namespace GenIcons

/-- One pixel: red, green, blue, alpha channels (`'RGBA'` mode). -/
structure RGBA where
  r : Nat
  g : Nat
  b : Nat
  a : Nat
deriving DecidableEq

/-- A raster canvas: pixel at column `x`, row `y`. -/
def Canvas : Type := Nat → Nat → RGBA

/-- The fully transparent black pixel `(0, 0, 0, 0)` (line 6). -/
def transparent : RGBA := ⟨0, 0, 0, 0⟩

/-- Opaque white `(255, 255, 255, 255)` (lines 24, 34–36). -/
def white : RGBA := ⟨255, 255, 255, 255⟩

/-- An in-memory image: mode string, dimensions, and pixel contents. -/
structure Image where
  mode : String
  width : Nat
  height : Nat
  px : Canvas

/-- The `'RGBA'` mode string passed to `Image.new` on line 6. -/
def rgbaMode : String := "RGBA"

/-- `Image.new(mode, (w, h), color)` (line 6): a `w × h` image with every
pixel set to `color`. -/
def Image.new (m : String) (w h : Nat) (c : RGBA) : Image :=
  ⟨m, w, h, fun _ _ => c⟩

/-- `draw.rectangle([(x0, y0), (x1, y1)], fill=col)`: paint every pixel of the
inclusive box (Pillow includes both corners). -/
def fillRect (c : Canvas) (x0 y0 x1 y1 : Nat) (col : RGBA) : Canvas :=
  fun x y => if x0 ≤ x ∧ x ≤ x1 ∧ y0 ≤ y ∧ y ≤ y1 then col else c x y

/-- Colour of gradient row `y` (lines 12–15):
`r = int(139 + (59 - 139) * ratio)`, `g = int(92 + (130 - 92) * ratio)`,
`b = int(246 + (246 - 246) * ratio)` with `ratio = y / size`, at alpha 255
(line 16).  In exact arithmetic, for `y < size`,
`int(139 - 80 * y / size) = (139 * size - 80 * y) / size` (`Nat` division),
`int(92 + 38 * y / size) = (92 * size + 38 * y) / size`, and the blue channel
is the constant 246. -/
def rowColor (size y : Nat) : RGBA :=
  ⟨(139 * size - 80 * y) / size, (92 * size + 38 * y) / size, 246, 255⟩

/-- The gradient loop `for y in range(n)` (lines 11–16): iteration `y` paints
the inclusive box `[(0, y), (size, y + 1)]` with `rowColor size y`; later
iterations paint on top of earlier ones. -/
def bgLoop (size : Nat) (c : Canvas) : Nat → Canvas
  | 0 => c
  | n + 1 => fillRect (bgLoop size c n) 0 n size (n + 1) (rowColor size n)

/-- The canvas after line 16: the full gradient loop run over the fresh
transparent canvas of line 6. -/
def bgStage (size : Nat) : Canvas :=
  bgLoop size (Image.new rgbaMode size size transparent).px size

/-- `padding = int(size * 0.15)` (line 19); `0.15 = 15/100` exactly. -/
def padding (size : Nat) : Nat := size * 15 / 100

/-- `line_width = max(2, size // 32)` (line 23). -/
def line_width (size : Nat) : Nat := max 2 (size / 32)

/-- The inner width/height `size - 2 * padding` of the bounding square,
the expression repeated on lines 27–32 and 36. -/
def inner (size : Nat) : Nat := size - 2 * padding size

/-- `line_start_x = padding + int((size - 2 * padding) * 0.2)` (line 27). -/
def line_start_x (size : Nat) : Nat := padding size + inner size * 2 / 10

/-- `line_end_x = padding + int((size - 2 * padding) * 0.8)` (line 28). -/
def line_end_x (size : Nat) : Nat := padding size + inner size * 8 / 10

/-- `line1_y = padding + int((size - 2 * padding) * 0.3)` (line 30). -/
def line1_y (size : Nat) : Nat := padding size + inner size * 3 / 10

/-- `line2_y = padding + int((size - 2 * padding) * 0.5)` (line 31). -/
def line2_y (size : Nat) : Nat := padding size + inner size * 5 / 10

/-- Floor of log₂ computed with explicit structural fuel (any `fuel ≥ n`
gives the true value), so that the kernel can evaluate it on literals. -/
def log2fuel : Nat → Nat → Nat
  | 0, _ => 0
  | fuel + 1, n => if n < 2 then 0 else log2fuel fuel (n / 2) + 1

/-- Binary logarithm: `blog k = ⌊log₂ k⌋` for `k ≥ 1`. -/
def blog (k : Nat) : Nat := log2fuel k k

/-- Rounding of a nonnegative integer to 53 significant bits, round to
nearest with ties to even: the significand rounding a binary64
multiplication performs.  Integers below `2 ^ 53` are exact; otherwise the
low `blog k - 52` bits are rounded away (the quotient `q = k / 2 ^ s` holds
the candidate significand, `r = k % 2 ^ s` the discarded part, and the
result rounds up when `r` exceeds half of `2 ^ s`, or equals it with `q`
odd). -/
def round53 (k : Nat) : Nat :=
  if k < 2 ^ 53 then k
  else if 2 * (k % 2 ^ (blog k - 52)) > 2 ^ (blog k - 52)
      ∨ (2 * (k % 2 ^ (blog k - 52)) = 2 ^ (blog k - 52)
        ∧ k / 2 ^ (blog k - 52) % 2 = 1) then
    (k / 2 ^ (blog k - 52) + 1) * 2 ^ (blog k - 52)
  else k / 2 ^ (blog k - 52) * 2 ^ (blog k - 52)

/-- `int(n * c)` in Python where `c` is a binary64 constant of exact value
`num / 2 ^ e`: the integer `n` converts to binary64 exactly (every size in
play is far below `2 ^ 53`), the exact product `n * num / 2 ^ e` is rounded
to the nearest binary64 value — its significand is `n * num` rounded to 53
bits — and `int()` truncates, which is the floor for these nonnegative
values. -/
def pyMulFloor (n num e : Nat) : Nat := round53 (n * num) / 2 ^ e

/-- The exact value of the binary64 literal `0.7` is `num07 / 2 ^ 53`.
`0.7` is not a dyadic rational; it rounds to a double strictly below
`7 / 10`: `10 * num07 = 63050394783186940 = 7 * 2 ^ 53 - 4`. -/
def num07 : Nat := 6305039478318694

/-- `line3_y = padding + int((size - 2 * padding) * 0.7)` (line 32).
Unlike the five other decimal constants of this file, the binary64
evaluation of `inner * 0.7` does not always floor to `7 * inner / 10`:
`0.7` rounds below `7 / 10`, and at `inner = 90` — i.e. at the real
rendered size 128 — the product evaluates to `62.99999999999999289…`, so
the program computes `int(90 * 0.7) = 62`, one less than the exact
`⌊63⌋`.  This offset is therefore modelled with the full binary64 product
rounding. -/
def line3_y (size : Nat) : Nat := padding size + pyMulFloor (inner size) num07 53

/-- Right endpoint of the third line,
`line_end_x - int((size - 2 * padding) * 0.2)` (line 36). -/
def line3_end_x (size : Nat) : Nat := line_end_x size - inner size * 2 / 10

/-- `draw.rectangle(rect, outline=col, width=w)` (line 24) for `w ≥ 2`:
Pillow paints four inclusive strips — top `[x0, y0, x1, y0 + w - 1]`,
bottom `[x0, y1 - w + 1, x1, y1]`, left `[x0, y0, x0 + w - 1, y1]` and
right `[x1 - w + 1, y0, x1, y1]`. -/
def rectOutline (c : Canvas) (x0 y0 x1 y1 w : Nat) (col : RGBA) : Canvas :=
  fillRect
    (fillRect
      (fillRect
        (fillRect c x0 y0 x1 (y0 + w - 1) col)
        x0 (y1 - (w - 1)) x1 y1 col)
      x0 y0 (x0 + w - 1) y1 col)
    (x1 - (w - 1)) y0 x1 y1 col

/-- `draw.line([(xa, y), (xb, y)], fill=col, width=w)` on a horizontal
segment (lines 34–36): a `w`-pixel tall opaque band over columns
`xa … xb` around row `y`. -/
def drawHLine (c : Canvas) (xa xb y w : Nat) (col : RGBA) : Canvas :=
  fillRect c xa (y - w / 2) xb (y - w / 2 + w - 1) col

/-- The pixel contents produced by `create_icon` (lines 4–38): gradient fill,
then the white rectangle outline along
`[padding, padding, size - padding, size - padding]` at `line_width`, then the
three horizontal white guide lines, the third ending at `line3_end_x`. -/
def iconCanvas (size : Nat) : Canvas :=
  drawHLine
    (drawHLine
      (drawHLine
        (rectOutline (bgStage size)
          (padding size) (padding size) (size - padding size) (size - padding size)
          (line_width size) white)
        (line_start_x size) (line_end_x size) (line1_y size) (line_width size) white)
      (line_start_x size) (line_end_x size) (line2_y size) (line_width size) white)
    (line_start_x size) (line3_end_x size) (line3_y size) (line_width size) white

/-- `create_icon(size)` (lines 4–38): the returned `size × size` RGBA image. -/
def create_icon (size : Nat) : Image :=
  ⟨rgbaMode, size, size, iconCanvas size⟩

/-- A filesystem entry: a directory, or a file holding a saved image. -/
inductive Entry where
  | dir (name : String)
  | file (name : String) (content : Image)

/-- The filesystem: a list of entries. -/
abbrev FS : Type := List Entry

/-- The name of an entry, directory or file alike. -/
def entryName : Entry → String
  | .dir n => n
  | .file n _ => n

/-- `os.path.exists(name)` (line 42): does any entry — of either kind —
with that name exist? -/
def path_exists : FS → String → Bool
  | [], _ => false
  | e :: rest, name => entryName e == name || path_exists rest name

/-- Is there a directory entry of this name? -/
def hasDir : FS → String → Bool
  | [], _ => false
  | .dir n :: rest, d => n == d || hasDir rest d
  | .file _ _ :: rest, d => hasDir rest d

/-- `os.makedirs(name)` (line 43): fails iff an entry of that name already
exists, else appends a directory entry. -/
def makedirs (fs : FS) (name : String) : Except String FS :=
  if path_exists fs name then Except.error "FileExistsError"
  else Except.ok (fs ++ [Entry.dir name])

/-- Write (or overwrite in place) the file entry at path `p`. -/
def putFile : FS → String → Image → FS
  | [], p, img => [Entry.file p img]
  | Entry.file q c :: rest, p, img =>
      if q = p then Entry.file p img :: rest
      else Entry.file q c :: putFile rest p img
  | Entry.dir q :: rest, p, img => Entry.dir q :: putFile rest p img

/-- Look up the file entry at path `p`. -/
def getFile : FS → String → Option Image
  | [], _ => none
  | Entry.file q c :: rest, p => if q = p then some c else getFile rest p
  | Entry.dir _ :: rest, p => getFile rest p

/-- `img.save(dir + "/" + fname)` (line 49): fails unless `dir` is a
directory entry, else writes the file entry, overwriting any previous one. -/
def save (fs : FS) (d fname : String) (img : Image) : Except String FS :=
  if hasDir fs d then Except.ok (putFile fs (d ++ "/" ++ fname) img)
  else Except.error "NotADirectoryError"

/-- `icons_dir = 'icons'` (line 41). -/
def icons_dir : String := "icons"

/-- The file name `f'icon{size}.png'` used on line 49. -/
def iconFile (size : Nat) : String := "icon" ++ toString size ++ ".png"

/-- The full relative path `f'{icons_dir}/icon{size}.png'` of line 49. -/
def iconPath (size : Nat) : String := icons_dir ++ "/" ++ iconFile size

/-- The progress line `f'Created icon{size}.png'` printed on line 50. -/
def createdLine (size : Nat) : String := "Created " ++ iconFile size

/-- The completion line printed on line 52. -/
def doneLine : String := "All icons created successfully!"

/-- `sizes = [16, 48, 128]` (line 46). -/
def sizes : List Nat := [16, 48, 128]

/-- Lines 41–43: create the output directory unless an entry named `icons`
already exists (of either kind — `os.path.exists` does not check that it is
a directory). -/
def ensure_icons_dir (fs : FS) : Except String FS :=
  if path_exists fs icons_dir then Except.ok fs else makedirs fs icons_dir

/-- One iteration of the loop on lines 47–50: render, save, print. -/
def driverStep (st : FS × List String) (size : Nat) :
    Except String (FS × List String) := do
  let fs ← save st.1 icons_dir (iconFile size) (create_icon size)
  Except.ok (fs, st.2 ++ [createdLine size])

/-- The whole module-level driver (lines 40–52): ensure the directory, loop
over the three sizes in order, print the completion line.  Returns the final
filesystem and the printed lines. -/
def runDriver (fs : FS) : Except String (FS × List String) := do
  let fs0 ← ensure_icons_dir fs
  let st ← sizes.foldlM driverStep (fs0, ([] : List String))
  Except.ok (st.1, st.2 ++ [doneLine])

/-! ### Helper lemmas about the renderer -/

/-- `⌊n * (a / b)⌋` over ℚ is `Nat` division `n * a / b`: the bridge between
the spec's real-arithmetic formulas and the code's truncated values. -/
lemma floor_cast_mul_div (n a b : ℕ) :
    ⌊(n : ℚ) * ((a : ℚ) / (b : ℚ))⌋₊ = n * a / b := by
  have h : (n : ℚ) * ((a : ℚ) / (b : ℚ)) = ((n * a : ℕ) : ℚ) / ((b : ℕ) : ℚ) := by
    push_cast
    ring
  rw [h, Nat.floor_div_nat, Nat.floor_natCast]

/-- For `size ≥ 5` the inner width `size - 2 * padding` is at least 5, so the
shortening `int(inner * 0.2)` of the third line is nonzero. -/
lemma inner_ge (size : Nat) (h : 5 ≤ size) : 5 ≤ inner size := by
  simp only [inner, padding]
  rcases Nat.eq_zero_or_pos (size * 15 / 100) with hq | hq
  · omega
  · omega

/-- Correctness of the fuelled binary logarithm: with enough fuel it brackets
its argument between consecutive powers of two. -/
lemma log2fuel_spec :
    ∀ fuel n, 1 ≤ n → n ≤ fuel →
      2 ^ log2fuel fuel n ≤ n ∧ n < 2 ^ (log2fuel fuel n + 1) := by
  intro fuel
  induction fuel with
  | zero => intro n h1 h2; omega
  | succ fuel ih =>
    intro n h1 h2
    by_cases h : n < 2
    · simp only [log2fuel, if_pos h]
      constructor
      · simpa using h1
      · simpa using h
    · simp only [log2fuel, if_neg h]
      have hn2 : 1 ≤ n / 2 := by omega
      have hf : n / 2 ≤ fuel := by omega
      obtain ⟨ha, hb⟩ := ih (n / 2) hn2 hf
      have e1 : 2 ^ (log2fuel fuel (n / 2) + 1) = 2 ^ log2fuel fuel (n / 2) * 2 :=
        pow_succ 2 _
      have e2 : 2 ^ (log2fuel fuel (n / 2) + 1 + 1)
          = 2 ^ (log2fuel fuel (n / 2) + 1) * 2 := pow_succ 2 _
      constructor
      · omega
      · omega

/-- `blog` brackets every positive integer between consecutive powers of 2. -/
lemma blog_spec (k : Nat) (hk : 1 ≤ k) : 2 ^ blog k ≤ k ∧ k < 2 ^ (blog k + 1) :=
  log2fuel_spec k k hk (Nat.le_refl k)

/-- Integers of 54 or more bits have `blog` at least 53. -/
lemma blog_ge_53 (k : Nat) (hk : 2 ^ 53 ≤ k) : 53 ≤ blog k := by
  by_contra hlt
  have h1 : 1 ≤ k := le_trans (by norm_num) hk
  have h2 := (blog_spec k h1).2
  have h3 : blog k + 1 ≤ 53 := by omega
  have h4 : (2 : ℕ) ^ (blog k + 1) ≤ 2 ^ 53 := Nat.pow_le_pow_right (by norm_num) h3
  omega

/-- Rounding to 53 significant bits moves an integer by at most half an
ulp, which is at most `k / 2 ^ 53`. -/
lemma round53_bounds (k : Nat) :
    k - k / 2 ^ 53 ≤ round53 k ∧ round53 k ≤ k + k / 2 ^ 53 := by
  unfold round53
  split
  · omega
  · rename_i hk
    have hk' : 2 ^ 53 ≤ k := by omega
    have h1 : 1 ≤ k := by omega
    obtain ⟨hlo, hhi⟩ := blog_spec k h1
    have h53 : 53 ≤ blog k := blog_ge_53 k hk'
    have epow : 2 ^ blog k = 2 ^ (blog k - 53) * 2 ^ 53 := by
      rw [← pow_add]
      congr 1
      omega
    have d1 : 2 ^ (blog k - 53) ≤ k / 2 ^ 53 := by
      rw [Nat.le_div_iff_mul_le (by positivity)]
      calc 2 ^ (blog k - 53) * 2 ^ 53 = 2 ^ blog k := epow.symm
        _ ≤ k := hlo
    have e2 : 2 ^ (blog k - 52) = 2 ^ (blog k - 53) * 2 := by
      rw [← pow_succ]
      congr 1
      omega
    have key : 2 ^ (blog k - 52) ≤ 2 * (k / 2 ^ 53) := by omega
    have hdm : 2 ^ (blog k - 52) * (k / 2 ^ (blog k - 52)) + k % 2 ^ (blog k - 52) = k :=
      Nat.div_add_mod k (2 ^ (blog k - 52))
    have hmod : k % 2 ^ (blog k - 52) < 2 ^ (blog k - 52) :=
      Nat.mod_lt _ (by positivity)
    split
    · rename_i hbr
      have h2r : 2 ^ (blog k - 52) ≤ 2 * (k % 2 ^ (blog k - 52)) := by
        rcases hbr with hgt | ⟨heq, -⟩ <;> omega
      have expand : (k / 2 ^ (blog k - 52) + 1) * 2 ^ (blog k - 52)
          = 2 ^ (blog k - 52) * (k / 2 ^ (blog k - 52)) + 2 ^ (blog k - 52) := by
        ring
      omega
    · rename_i hbr
      have h2r : 2 * (k % 2 ^ (blog k - 52)) ≤ 2 ^ (blog k - 52) := by
        push_neg at hbr
        omega
      have expand : k / 2 ^ (blog k - 52) * 2 ^ (blog k - 52)
          = 2 ^ (blog k - 52) * (k / 2 ^ (blog k - 52)) := by
        ring
      omega

/-- The binary64 evaluation of `int(n * 0.7)` never exceeds the exact
`⌊7 * n / 10⌋` (here for all `n ≤ 2 ^ 50`, far beyond any canvas size). -/
lemma pyMulFloor07_le (n : Nat) (hn : n ≤ 2 ^ 50) :
    pyMulFloor n num07 53 ≤ n * 7 / 10 := by
  obtain ⟨h1, h2⟩ := round53_bounds (n * num07)
  simp only [pyMulFloor, num07] at *
  omega

/-- The binary64 evaluation of `int(n * 0.7)` falls short of the exact
`⌊7 * n / 10⌋` by at most one (for all `n ≤ 2 ^ 50`). -/
lemma le_pyMulFloor07 (n : Nat) (hn : n ≤ 2 ^ 50) :
    n * 7 / 10 ≤ pyMulFloor n num07 53 + 1 := by
  obtain ⟨h1, h2⟩ := round53_bounds (n * num07)
  simp only [pyMulFloor, num07] at *
  omega

/-- After `n` iterations of the gradient loop, every row `y < n` holds
`rowColor size y`: iteration `y` is the last writer of row `y` (iteration
`y - 1` also paints it, but is overdrawn). -/
lemma bgLoop_eq (size : Nat) (c : Canvas) :
    ∀ n x y, y < n → x ≤ size → bgLoop size c n x y = rowColor size y := by
  intro n
  induction n with
  | zero => intro x y hy _; exact absurd hy (Nat.not_lt_zero y)
  | succ n ih =>
    intro x y hy hx
    simp only [bgLoop, fillRect]
    rcases Nat.lt_or_ge y n with h | h
    · rw [if_neg (by rintro ⟨-, -, hny, -⟩; omega)]
      exact ih x y h hx
    · have hyn : y = n := by omega
      subst hyn
      rw [if_pos ⟨Nat.zero_le x, hx, Nat.le_refl y, Nat.le_succ y⟩]

/-- Every visible pixel of the finished gradient layer is its row colour. -/
lemma bgStage_eq (size x y : Nat) (hy : y < size) (hx : x ≤ size) :
    bgStage size x y = rowColor size y :=
  bgLoop_eq size _ size x y hy hx

/-- Painting with an opaque colour preserves full opacity at any pixel. -/
lemma fillRect_a {c : Canvas} {x0 y0 x1 y1 : Nat} {col : RGBA} {x y : Nat}
    (hc : (c x y).a = 255) (hcol : col.a = 255) :
    ((fillRect c x0 y0 x1 y1 col) x y).a = 255 := by
  unfold fillRect
  split
  · exact hcol
  · exact hc

/-- Every visible pixel of the finished icon is fully opaque: the gradient
rows are painted at alpha 255 and all later strokes are opaque white. -/
lemma create_icon_alpha (size x y : Nat) (hx : x < size) (hy : y < size) :
    ((create_icon size).px x y).a = 255 := by
  have hbg : ((bgStage size) x y).a = 255 := by
    rw [bgStage_eq size x y hy (Nat.le_of_lt hx)]
    rfl
  show ((iconCanvas size) x y).a = 255
  unfold iconCanvas drawHLine rectOutline
  exact fillRect_a (fillRect_a (fillRect_a (fillRect_a (fillRect_a (fillRect_a
    (fillRect_a hbg rfl) rfl) rfl) rfl) rfl) rfl) rfl

/-- `rowColor` at row 0 is the start colour `(139, 92, 246)`. -/
lemma rowColor_zero (size : Nat) (hs : 0 < size) :
    rowColor size 0 = ⟨139, 92, 246, 255⟩ := by
  unfold rowColor
  have h1 : 139 * size - 80 * 0 = 139 * size := by omega
  have h2 : 92 * size + 38 * 0 = 92 * size := by omega
  rw [h1, h2, Nat.mul_comm 139 size, Nat.mul_comm 92 size,
    Nat.mul_div_cancel_left _ hs, Nat.mul_div_cancel_left _ hs]

/-- The code's `Nat`-division row colour is exactly the spec's
"`ratio = y / size`, linearly interpolate, round down" formula over ℚ. -/
lemma rowColor_ratio (size y : Nat) (hs : 0 < size) (hy : y < size) :
    rowColor size y =
      ⟨⌊(139 : ℚ) + (59 - 139) * ((y : ℚ) / (size : ℚ))⌋₊,
       ⌊(92 : ℚ) + (130 - 92) * ((y : ℚ) / (size : ℚ))⌋₊,
       ⌊(246 : ℚ) + (246 - 246) * ((y : ℚ) / (size : ℚ))⌋₊, 255⟩ := by
  have hsq : ((size : ℚ)) ≠ 0 := Nat.cast_ne_zero.mpr hs.ne'
  have h80 : 80 * y ≤ 139 * size := by nlinarith
  have hr : (139 : ℚ) + (59 - 139) * ((y : ℚ) / (size : ℚ))
      = ((139 * size - 80 * y : ℕ) : ℚ) / ((size : ℕ) : ℚ) := by
    rw [Nat.cast_sub h80]
    push_cast
    field_simp
    ring
  have hg : (92 : ℚ) + (130 - 92) * ((y : ℚ) / (size : ℚ))
      = ((92 * size + 38 * y : ℕ) : ℚ) / ((size : ℕ) : ℚ) := by
    push_cast
    rw [eq_div_iff hsq, add_mul, mul_assoc, div_mul_cancel₀ _ hsq]
    ring
  have hb : (246 : ℚ) + (246 - 246) * ((y : ℚ) / (size : ℚ)) = ((246 : ℕ) : ℚ) := by
    push_cast
    ring
  rw [hr, hg, hb, Nat.floor_div_nat, Nat.floor_div_nat, Nat.floor_natCast,
    Nat.floor_natCast, Nat.floor_natCast]
  rfl

/-- The red channel never increases as `y` grows. -/
lemma rowColor_r_anti (size y z : Nat) (hyz : y ≤ z) :
    (rowColor size z).r ≤ (rowColor size y).r :=
  Nat.div_le_div_right (Nat.sub_le_sub_left (by omega) _)

/-- The green channel never decreases as `y` grows. -/
lemma rowColor_g_mono (size y z : Nat) (hyz : y ≤ z) :
    (rowColor size y).g ≤ (rowColor size z).g :=
  Nat.div_le_div_right (by omega)

/-- The red channel stays at or above the end value 59. -/
lemma rowColor_r_ge (size y : Nat) (hs : 0 < size) (hy : y < size) :
    59 ≤ (rowColor size y).r := by
  show 59 ≤ (139 * size - 80 * y) / size
  rw [Nat.le_div_iff_mul_le hs]
  omega

/-- The red channel stays at or below the start value 139. -/
lemma rowColor_r_le (size y : Nat) (hs : 0 < size) :
    (rowColor size y).r ≤ 139 := by
  show (139 * size - 80 * y) / size ≤ 139
  calc (139 * size - 80 * y) / size ≤ 139 * size / size :=
        Nat.div_le_div_right (Nat.sub_le _ _)
    _ = 139 := by rw [Nat.mul_comm, Nat.mul_div_cancel_left _ hs]

/-- The green channel stays at or above the start value 92. -/
lemma rowColor_g_ge (size y : Nat) (hs : 0 < size) :
    92 ≤ (rowColor size y).g := by
  show 92 ≤ (92 * size + 38 * y) / size
  rw [Nat.le_div_iff_mul_le hs]
  omega

/-- The green channel stays at or below the end value 130. -/
lemma rowColor_g_le (size y : Nat) (hs : 0 < size) (hy : y < size) :
    (rowColor size y).g ≤ 130 := by
  show (92 * size + 38 * y) / size ≤ 130
  calc (92 * size + 38 * y) / size ≤ 130 * size / size :=
        Nat.div_le_div_right (by omega)
    _ = 130 := by rw [Nat.mul_comm, Nat.mul_div_cancel_left _ hs]

/-! ### Helper lemmas about the filesystem model -/

/-- Overwriting a file never adds or removes directory entries. -/
lemma hasDir_putFile (fs : FS) (p : String) (img : Image) (d : String) :
    hasDir (putFile fs p img) d = hasDir fs d := by
  induction fs with
  | nil => simp [putFile, hasDir]
  | cons e rest ih =>
    cases e with
    | dir q => simp [putFile, hasDir, ih]
    | file q c =>
      by_cases h : q = p
      · simp [putFile, h, hasDir]
      · simp [putFile, h, hasDir, ih]

/-- Reading back the path just written yields the written image. -/
lemma getFile_putFile_same (fs : FS) (p : String) (img : Image) :
    getFile (putFile fs p img) p = some img := by
  induction fs with
  | nil => simp [putFile, getFile]
  | cons e rest ih =>
    cases e with
    | dir q => simp [putFile, getFile, ih]
    | file q c =>
      by_cases h : q = p
      · simp [putFile, h, getFile]
      · simp [putFile, h, getFile, ih]

/-- Writing one path leaves every other path unchanged. -/
lemma getFile_putFile_ne (fs : FS) (p q : String) (img : Image) (h : q ≠ p) :
    getFile (putFile fs p img) q = getFile fs q := by
  have hpq : ¬ p = q := fun hh => h hh.symm
  induction fs with
  | nil => simp only [putFile, getFile, if_neg hpq]
  | cons e rest ih =>
    cases e with
    | dir r => simp only [putFile, getFile, ih]
    | file r c =>
      by_cases hr : r = p
      · subst hr
        simp only [putFile, if_pos rfl, getFile, if_neg hpq]
      · simp only [putFile, if_neg hr, getFile, ih]

/-- A directory entry is in particular an entry, so `os.path.exists` sees it. -/
lemma hasDir_path_exists (fs : FS) (d : String) (h : hasDir fs d = true) :
    path_exists fs d = true := by
  induction fs with
  | nil => simp [hasDir] at h
  | cons e rest ih =>
    cases e with
    | dir q =>
      simp [hasDir] at h
      rcases h with h | h
      · simp [path_exists, entryName, h]
      · simp [path_exists, ih h]
    | file q c =>
      simp [hasDir] at h
      simp [path_exists, ih h]

/-- `makedirs` leaves a directory entry of the requested name behind. -/
lemma hasDir_append_dir (fs : FS) (d : String) :
    hasDir (fs ++ [Entry.dir d]) d = true := by
  induction fs with
  | nil => simp [hasDir]
  | cons e rest ih =>
    cases e with
    | dir q => simp [hasDir, ih]
    | file q c => simp [hasDir, ih]

/-- When the `icons` directory exists, the driver succeeds and its effect is
exactly the three file writes plus the four printed lines. -/
lemma runDriver_of_hasDir (fs : FS) (h : hasDir fs icons_dir = true) :
    runDriver fs = Except.ok
      (putFile (putFile (putFile fs (iconPath 16) (create_icon 16))
          (iconPath 48) (create_icon 48)) (iconPath 128) (create_icon 128),
       [createdLine 16, createdLine 48, createdLine 128, doneLine]) := by
  simp [runDriver, ensure_icons_dir, hasDir_path_exists fs icons_dir h,
    sizes, List.foldlM, driverStep, save, bind, Except.bind, pure, Except.pure,
    hasDir_putFile, h, iconPath]

/-- Inversion for the save loop: a successful fold means the `icons`
directory existed and the three files were written in order. -/
lemma fold_inv {fs0 fs₁ : FS} {out0 out₁ : List String}
    (h : sizes.foldlM driverStep (fs0, out0) = Except.ok (fs₁, out₁)) :
    hasDir fs0 icons_dir = true ∧
    fs₁ = putFile (putFile (putFile fs0 (iconPath 16) (create_icon 16))
        (iconPath 48) (create_icon 48)) (iconPath 128) (create_icon 128) ∧
    out₁ = out0 ++ [createdLine 16, createdLine 48, createdLine 128] := by
  by_cases h1 : hasDir fs0 icons_dir = true
  · simp [sizes, List.foldlM, driverStep, save, bind, Except.bind, pure, Except.pure,
      hasDir_putFile, h1, iconPath] at h
    exact ⟨h1, h.1.symm, h.2.symm⟩
  · have h1f : hasDir fs0 icons_dir = false := by simpa using h1
    simp [sizes, List.foldlM, driverStep, save, bind, Except.bind, h1f] at h

/-- Inversion for the whole driver: a successful run went through some
starting filesystem `fs0` holding the `icons` directory, wrote the three
files on top of it, and printed the standard four lines. -/
lemma runDriver_ok_inv {fs fs₁ : FS} {out₁ : List String}
    (h : runDriver fs = Except.ok (fs₁, out₁)) :
    ∃ fs0, hasDir fs0 icons_dir = true ∧
      fs₁ = putFile (putFile (putFile fs0 (iconPath 16) (create_icon 16))
          (iconPath 48) (create_icon 48)) (iconPath 128) (create_icon 128) ∧
      out₁ = [createdLine 16, createdLine 48, createdLine 128, doneLine] := by
  by_cases hpe : path_exists fs icons_dir = true
  · simp only [runDriver, ensure_icons_dir, if_pos hpe, bind, Except.bind] at h
    rcases hfold : sizes.foldlM driverStep (fs, ([] : List String)) with err | ⟨stf, sto⟩
    · rw [hfold] at h
      cases h
    · rw [hfold] at h
      obtain ⟨hd, hfs, hout⟩ := fold_inv hfold
      cases h
      exact ⟨fs, hd, hfs, by rw [hout]; rfl⟩
  · simp only [runDriver, ensure_icons_dir, if_neg hpe, makedirs, if_neg hpe,
      bind, Except.bind] at h
    rcases hfold : sizes.foldlM driverStep (fs ++ [Entry.dir icons_dir], ([] : List String))
        with err | ⟨stf, sto⟩
    · rw [hfold] at h
      cases h
    · rw [hfold] at h
      obtain ⟨hd, hfs, hout⟩ := fold_inv hfold
      cases h
      exact ⟨fs ++ [Entry.dir icons_dir], hd, hfs, by rw [hout]; rfl⟩

/-- The three icon paths are pairwise distinct. -/
lemma iconPath_ne_16_48 : iconPath 16 ≠ iconPath 48 := by decide

/-- The 48- and 128-pixel icon paths differ. -/
lemma iconPath_ne_48_128 : iconPath 48 ≠ iconPath 128 := by decide

/-- The 16- and 128-pixel icon paths differ. -/
lemma iconPath_ne_16_128 : iconPath 16 ≠ iconPath 128 := by decide

/-! ### Claim theorems -/

/-- C1, counterexample: the claim "pixel alpha at the four outermost corners
is 0" is false at the boundary case `size = 16` it asks to verify: the
gradient loop paints row 0 at full opacity, so the corner pixel `(0, 0)` of
`create_icon 16` has alpha 255, not 0 (and the outline, drawn at
`padding = 2` with width 2, does not even reach the corner). -/
theorem corner_alpha_not_zero_at_16 : ((create_icon 16).px 0 0).a ≠ 0 := by
  decide

/-- C1, amended: for every `size > 0`, the four outermost corner pixels of
the canvas returned by the Icon Renderer have alpha 255 (fully opaque),
because the background gradient paints every row at alpha 255 before the
white strokes are drawn; no corner is ever transparent. -/
theorem corner_alpha_opaque (size : Nat) (hs : 0 < size) :
    ((create_icon size).px 0 0).a = 255 ∧
    ((create_icon size).px (size - 1) 0).a = 255 ∧
    ((create_icon size).px 0 (size - 1)).a = 255 ∧
    ((create_icon size).px (size - 1) (size - 1)).a = 255 := by
  have hlt : size - 1 < size := by omega
  exact ⟨create_icon_alpha size 0 0 hs hs, create_icon_alpha size _ 0 hlt hs,
    create_icon_alpha size 0 _ hs hlt, create_icon_alpha size _ _ hlt hlt⟩

/-- C1, witness: the amended corner-opacity theorem evaluated at `size = 16`. -/
theorem corner_alpha_opaque_witness :
    ((create_icon 16).px 0 0).a = 255 ∧ ((create_icon 16).px 15 0).a = 255 ∧
    ((create_icon 16).px 0 15).a = 255 ∧ ((create_icon 16).px 15 15).a = 255 :=
  corner_alpha_opaque 16 (by norm_num)

/-- C2: for every `size > 0` and fixed column `x < size`, the background
layer at row 0 is the start colour RGB(139, 92, 246); each row's colour is
exactly `int(start + (end - start) * (y / size))` per channel (floor of the
linear interpolation over ℚ); red is non-increasing within [59, 139], green
non-decreasing within [92, 130], blue constant 246; and the row colour does
not depend on the column. -/
theorem background_gradient (size : Nat) (hs : 0 < size) :
    (∀ x, x < size → bgStage size x 0 = ⟨139, 92, 246, 255⟩) ∧
    (∀ x y, x < size → y < size →
      bgStage size x y =
        ⟨⌊(139 : ℚ) + (59 - 139) * ((y : ℚ) / (size : ℚ))⌋₊,
         ⌊(92 : ℚ) + (130 - 92) * ((y : ℚ) / (size : ℚ))⌋₊,
         ⌊(246 : ℚ) + (246 - 246) * ((y : ℚ) / (size : ℚ))⌋₊, 255⟩) ∧
    (∀ x y z, x < size → y ≤ z → z < size →
      (bgStage size x z).r ≤ (bgStage size x y).r ∧
      59 ≤ (bgStage size x z).r ∧ (bgStage size x y).r ≤ 139 ∧
      (bgStage size x y).g ≤ (bgStage size x z).g ∧
      92 ≤ (bgStage size x y).g ∧ (bgStage size x z).g ≤ 130 ∧
      (bgStage size x y).b = 246) ∧
    (∀ x w y, x < size → w < size → y < size →
      bgStage size x y = bgStage size w y) := by
  refine ⟨?_, ?_, ?_, ?_⟩
  · intro x hx
    rw [bgStage_eq size x 0 hs (Nat.le_of_lt hx), rowColor_zero size hs]
  · intro x y hx hy
    rw [bgStage_eq size x y hy (Nat.le_of_lt hx), rowColor_ratio size y hs hy]
  · intro x y z hx hyz hz
    have hy : y < size := lt_of_le_of_lt hyz hz
    rw [bgStage_eq size x y hy (Nat.le_of_lt hx),
      bgStage_eq size x z hz (Nat.le_of_lt hx)]
    exact ⟨rowColor_r_anti size y z hyz, rowColor_r_ge size z hs hz,
      rowColor_r_le size y hs, rowColor_g_mono size y z hyz,
      rowColor_g_ge size y hs, rowColor_g_le size z hs hz, rfl⟩
  · intro x w y hx hw hy
    rw [bgStage_eq size x y hy (Nat.le_of_lt hx),
      bgStage_eq size w y hy (Nat.le_of_lt hw)]

/-- C2, witness: the gradient theorem evaluated at `size = 16`, column 0. -/
theorem background_gradient_witness : bgStage 16 0 0 = ⟨139, 92, 246, 255⟩ :=
  (background_gradient 16 (by norm_num)).1 0 (by norm_num)

/-- C3, counterexample: at `size = 4` the claimed strict shortening of the
third guide line fails — `int((size - 2 * padding) * 0.2) = int(0.8) = 0`, so
the third line's right endpoint coincides with the other two lines' right
endpoint instead of being shorter. -/
theorem third_line_not_shorter_at_4 :
    line3_end_x 4 = line_end_x 4 ∧ ¬ line3_end_x 4 < line_end_x 4 := by
  decide

/-- C3, amended: for every `size > 0` the renderer computes
`padding = ⌊size * 0.15⌋`, strokes the white outline along
`[padding, padding, size - padding, size - padding]`, and draws the three
guide lines spanning 0.2 to 0.8 of the inner width, the first two at
vertical offsets exactly `⌊0.3 * inner⌋` and `⌊0.5 * inner⌋` below
`padding` and the third at the binary64 evaluation of
`int(inner * 0.7)` — which stays within one pixel below the exact
`⌊0.7 * inner⌋` and equals it at most sizes, but is one pixel less
whenever the double product falls just under an integer, as happens at the
rendered size 128 (`line3_y 128 = 81`, the exact offset formula giving 82).
The third line's right endpoint is shortened by an additional
`⌊0.2 * inner⌋`, making it strictly shorter than the other two for every
`size ≥ 5` (for `size ≤ 4` the shortening floors to 0 and the third line
coincides with the others). -/
theorem geometry_params (size : Nat) (hs : 0 < size) :
    padding size = ⌊(size : ℚ) * 0.15⌋₊ ∧
    create_icon size = ⟨rgbaMode, size, size,
      drawHLine
        (drawHLine
          (drawHLine
            (rectOutline (bgStage size)
              (padding size) (padding size) (size - padding size) (size - padding size)
              (line_width size) white)
            (line_start_x size) (line_end_x size) (line1_y size) (line_width size) white)
          (line_start_x size) (line_end_x size) (line2_y size) (line_width size) white)
        (line_start_x size) (line3_end_x size) (line3_y size) (line_width size) white⟩ ∧
    inner size = size - 2 * padding size ∧
    line_start_x size = padding size + ⌊(inner size : ℚ) * 0.2⌋₊ ∧
    line_end_x size = padding size + ⌊(inner size : ℚ) * 0.8⌋₊ ∧
    line1_y size = padding size + ⌊(inner size : ℚ) * 0.3⌋₊ ∧
    line2_y size = padding size + ⌊(inner size : ℚ) * 0.5⌋₊ ∧
    line3_y size = padding size + pyMulFloor (inner size) num07 53 ∧
    (inner size ≤ 2 ^ 50 →
      line3_y size ≤ padding size + ⌊(inner size : ℚ) * 0.7⌋₊ ∧
      padding size + ⌊(inner size : ℚ) * 0.7⌋₊ ≤ line3_y size + 1) ∧
    line3_y 128 = 81 ∧
    padding 128 + ⌊(inner 128 : ℚ) * 0.7⌋₊ = 82 ∧
    line3_end_x size = line_end_x size - ⌊(inner size : ℚ) * 0.2⌋₊ ∧
    (5 ≤ size → line3_end_x size < line_end_x size) := by
  have hc15 : (0.15 : ℚ) = ((15 : ℕ) : ℚ) / ((100 : ℕ) : ℚ) := by norm_num
  have hc2 : (0.2 : ℚ) = ((2 : ℕ) : ℚ) / ((10 : ℕ) : ℚ) := by norm_num
  have hc8 : (0.8 : ℚ) = ((8 : ℕ) : ℚ) / ((10 : ℕ) : ℚ) := by norm_num
  have hc3 : (0.3 : ℚ) = ((3 : ℕ) : ℚ) / ((10 : ℕ) : ℚ) := by norm_num
  have hc5 : (0.5 : ℚ) = ((5 : ℕ) : ℚ) / ((10 : ℕ) : ℚ) := by norm_num
  have hc7 : (0.7 : ℚ) = ((7 : ℕ) : ℚ) / ((10 : ℕ) : ℚ) := by norm_num
  refine ⟨?_, rfl, rfl, ?_, ?_, ?_, ?_, rfl, ?_, by decide, ?_, ?_, ?_⟩
  · rw [hc15, floor_cast_mul_div]
    rfl
  · rw [hc2, floor_cast_mul_div]
    rfl
  · rw [hc8, floor_cast_mul_div]
    rfl
  · rw [hc3, floor_cast_mul_div]
    rfl
  · rw [hc5, floor_cast_mul_div]
    rfl
  · intro hin
    rw [hc7, floor_cast_mul_div]
    have hle := pyMulFloor07_le (inner size) hin
    have hge := le_pyMulFloor07 (inner size) hin
    simp only [line3_y]
    omega
  · rw [(by decide : inner 128 = 90), hc7, floor_cast_mul_div]
    decide
  · rw [hc2, floor_cast_mul_div]
    rfl
  · intro h5
    have h1 : 5 ≤ inner size := inner_ge size h5
    have h2 : 1 ≤ inner size * 2 / 10 := by omega
    have h3 : 4 ≤ inner size * 8 / 10 := by omega
    have h4 : inner size * 2 / 10 ≤ inner size * 8 / 10 :=
      Nat.div_le_div_right (by omega)
    simp only [line3_end_x, line_end_x]
    omega

/-- C3, witness: the geometry theorem at `size = 16` — the padding formula,
the one-pixel bracket for the third line's offset, and the strict
shortening of the third line. -/
theorem geometry_params_witness :
    padding 16 = ⌊(16 : ℚ) * 0.15⌋₊ ∧
    line3_y 16 ≤ padding 16 + ⌊(inner 16 : ℚ) * 0.7⌋₊ ∧
    line3_end_x 16 < line_end_x 16 := by
  obtain ⟨p1, -, -, -, -, -, -, -, p9, -, -, -, p13⟩ := geometry_params 16 (by norm_num)
  exact ⟨p1, (p9 (by decide)).1, p13 (by norm_num)⟩

/-- C4: invoking the driver on a filesystem with no prior `icons/` directory
creates the directory and exactly the three files `icons/icon16.png`,
`icons/icon48.png`, `icons/icon128.png`, written in ascending size order,
each an RGBA image whose dimensions match the size in its filename, and
prints exactly three per-file progress lines followed by one completion
line. -/
theorem first_run :
    runDriver [] = Except.ok
      ([Entry.dir icons_dir,
        Entry.file (iconPath 16) (create_icon 16),
        Entry.file (iconPath 48) (create_icon 48),
        Entry.file (iconPath 128) (create_icon 128)],
       [createdLine 16, createdLine 48, createdLine 128, doneLine]) ∧
    (create_icon 16).width = 16 ∧ (create_icon 16).height = 16 ∧
    (create_icon 48).width = 48 ∧ (create_icon 48).height = 48 ∧
    (create_icon 128).width = 128 ∧ (create_icon 128).height = 128 ∧
    (create_icon 16).mode = rgbaMode ∧ (create_icon 48).mode = rgbaMode ∧
    (create_icon 128).mode = rgbaMode :=
  ⟨rfl, rfl, rfl, rfl, rfl, rfl, rfl, rfl, rfl, rfl⟩

/-- C5: the stroke width passed to the rectangle outline and to all three
guide lines (see `iconCanvas`) is `line_width size = max(2, ⌊size / 32⌋)`;
in particular 4 at `size = 128` and 2 at `size = 16`. -/
theorem stroke_width (size : Nat) :
    line_width size = max 2 ⌊(size : ℚ) / 32⌋₊ ∧
    line_width 128 = 4 ∧ line_width 16 = 2 := by
  refine ⟨?_, by decide, by decide⟩
  have h32 : ((32 : ℚ)) = ((32 : ℕ) : ℚ) := by norm_num
  rw [h32, Nat.floor_div_nat, Nat.floor_natCast]
  rfl

/-- C6: the renderer is a pure function of `size` in this embedding, so a
second driver invocation on the filesystem produced by any successful first
invocation succeeds again, prints the same lines, and overwrites each of the
three icon files with identical content (`create_icon` of the same size). -/
theorem rerun_reproducible (fs fs₁ : FS) (out₁ : List String)
    (h : runDriver fs = Except.ok (fs₁, out₁)) :
    ∃ fs₂, runDriver fs₁ = Except.ok (fs₂, out₁) ∧
      getFile fs₂ (iconPath 16) = getFile fs₁ (iconPath 16) ∧
      getFile fs₂ (iconPath 48) = getFile fs₁ (iconPath 48) ∧
      getFile fs₂ (iconPath 128) = getFile fs₁ (iconPath 128) ∧
      getFile fs₁ (iconPath 16) = some (create_icon 16) ∧
      getFile fs₁ (iconPath 48) = some (create_icon 48) ∧
      getFile fs₁ (iconPath 128) = some (create_icon 128) := by
  obtain ⟨fs0, hd0, hfs, hout⟩ := runDriver_ok_inv h
  have hd1 : hasDir fs₁ icons_dir = true := by
    rw [hfs, hasDir_putFile, hasDir_putFile, hasDir_putFile]
    exact hd0
  have g16 : getFile fs₁ (iconPath 16) = some (create_icon 16) := by
    rw [hfs, getFile_putFile_ne _ _ _ _ iconPath_ne_16_128,
      getFile_putFile_ne _ _ _ _ iconPath_ne_16_48, getFile_putFile_same]
  have g48 : getFile fs₁ (iconPath 48) = some (create_icon 48) := by
    rw [hfs, getFile_putFile_ne _ _ _ _ iconPath_ne_48_128, getFile_putFile_same]
  have g128 : getFile fs₁ (iconPath 128) = some (create_icon 128) := by
    rw [hfs, getFile_putFile_same]
  subst hout
  refine ⟨_, runDriver_of_hasDir fs₁ hd1, ?_, ?_, ?_, g16, g48, g128⟩
  · rw [getFile_putFile_ne _ _ _ _ iconPath_ne_16_128,
      getFile_putFile_ne _ _ _ _ iconPath_ne_16_48, getFile_putFile_same, g16]
  · rw [getFile_putFile_ne _ _ _ _ iconPath_ne_48_128, getFile_putFile_same, g48]
  · rw [getFile_putFile_same, g128]

/-- C6, witness: rerunning on the filesystem left by the first run from an
empty filesystem. -/
theorem rerun_reproducible_witness :
    ∃ fs₂, runDriver
        [Entry.dir icons_dir,
         Entry.file (iconPath 16) (create_icon 16),
         Entry.file (iconPath 48) (create_icon 48),
         Entry.file (iconPath 128) (create_icon 128)] =
      Except.ok (fs₂, [createdLine 16, createdLine 48, createdLine 128, doneLine]) ∧
      getFile fs₂ (iconPath 16) =
        getFile [Entry.dir icons_dir,
          Entry.file (iconPath 16) (create_icon 16),
          Entry.file (iconPath 48) (create_icon 48),
          Entry.file (iconPath 128) (create_icon 128)] (iconPath 16) ∧
      getFile fs₂ (iconPath 48) =
        getFile [Entry.dir icons_dir,
          Entry.file (iconPath 16) (create_icon 16),
          Entry.file (iconPath 48) (create_icon 48),
          Entry.file (iconPath 128) (create_icon 128)] (iconPath 48) ∧
      getFile fs₂ (iconPath 128) =
        getFile [Entry.dir icons_dir,
          Entry.file (iconPath 16) (create_icon 16),
          Entry.file (iconPath 48) (create_icon 48),
          Entry.file (iconPath 128) (create_icon 128)] (iconPath 128) ∧
      getFile [Entry.dir icons_dir,
          Entry.file (iconPath 16) (create_icon 16),
          Entry.file (iconPath 48) (create_icon 48),
          Entry.file (iconPath 128) (create_icon 128)] (iconPath 16) =
        some (create_icon 16) ∧
      getFile [Entry.dir icons_dir,
          Entry.file (iconPath 16) (create_icon 16),
          Entry.file (iconPath 48) (create_icon 48),
          Entry.file (iconPath 128) (create_icon 128)] (iconPath 48) =
        some (create_icon 48) ∧
      getFile [Entry.dir icons_dir,
          Entry.file (iconPath 16) (create_icon 16),
          Entry.file (iconPath 48) (create_icon 48),
          Entry.file (iconPath 128) (create_icon 128)] (iconPath 128) =
        some (create_icon 128) :=
  rerun_reproducible [] _ _ rfl

/-- C7: when the `icons` directory already exists, the driver neither fails
nor attempts directory creation, and it produces the same three files (same
paths, same rendered contents `create_icon 16/48/128`) as a first run. -/
theorem dir_exists_idempotent (fs : FS) (h : hasDir fs icons_dir = true) :
    ∃ fs' out, runDriver fs = Except.ok (fs', out) ∧
      getFile fs' (iconPath 16) = some (create_icon 16) ∧
      getFile fs' (iconPath 48) = some (create_icon 48) ∧
      getFile fs' (iconPath 128) = some (create_icon 128) ∧
      out = [createdLine 16, createdLine 48, createdLine 128, doneLine] := by
  refine ⟨_, _, runDriver_of_hasDir fs h, ?_, ?_, ?_, rfl⟩
  · rw [getFile_putFile_ne _ _ _ _ iconPath_ne_16_128,
      getFile_putFile_ne _ _ _ _ iconPath_ne_16_48, getFile_putFile_same]
  · rw [getFile_putFile_ne _ _ _ _ iconPath_ne_48_128, getFile_putFile_same]
  · rw [getFile_putFile_same]

/-- C7, witness: the driver run on a filesystem that already holds the
`icons` directory. -/
theorem dir_exists_idempotent_witness :
    ∃ fs' out, runDriver [Entry.dir icons_dir] = Except.ok (fs', out) ∧
      getFile fs' (iconPath 16) = some (create_icon 16) ∧
      getFile fs' (iconPath 48) = some (create_icon 48) ∧
      getFile fs' (iconPath 128) = some (create_icon 128) ∧
      out = [createdLine 16, createdLine 48, createdLine 128, doneLine] :=
  dir_exists_idempotent [Entry.dir icons_dir] (by decide)

/-- C8: for every `size > 0` the canvas returned by the Icon Renderer has
dimensions exactly `size × size`. -/
theorem canvas_dimensions (size : Nat) (hs : 0 < size) :
    (create_icon size).width = size ∧ (create_icon size).height = size :=
  ⟨rfl, rfl⟩

/-- C8, witness: the dimension theorem at `size = 16`. -/
theorem canvas_dimensions_witness :
    (create_icon 16).width = 16 ∧ (create_icon 16).height = 16 :=
  canvas_dimensions 16 (by norm_num)

/-- C9: every visible pixel of the rendered icon is fully opaque
(alpha = 255): the gradient loop paints every full-width row at alpha 255
before the white strokes are drawn, so nothing of the initial transparent
fill remains. -/
theorem all_pixels_opaque (size x y : Nat) (hx : x < size) (hy : y < size) :
    ((create_icon size).px x y).a = 255 :=
  create_icon_alpha size x y hx hy

/-- C9, witness: full opacity at pixel (7, 9) of the 48-pixel icon. -/
theorem all_pixels_opaque_witness : ((create_icon 48).px 7 9).a = 255 :=
  all_pixels_opaque 48 7 9 (by norm_num) (by norm_num)

/-- C10: the driver's pre-write check `os.path.exists('icons')` tests only
that an entry named `icons` exists, of either kind: with a regular file of
that name present, directory creation is skipped entirely (the filesystem is
returned unchanged), and `makedirs` is attempted exactly when no entry of
that name exists. -/
theorem exists_check_semantics (fs : FS) (img : Image) :
    path_exists (Entry.file icons_dir img :: fs) icons_dir = true ∧
    ensure_icons_dir (Entry.file icons_dir img :: fs) =
      Except.ok (Entry.file icons_dir img :: fs) ∧
    (path_exists fs icons_dir = false →
      ensure_icons_dir fs = makedirs fs icons_dir) ∧
    (path_exists fs icons_dir = true → ensure_icons_dir fs = Except.ok fs) := by
  have h1 : path_exists (Entry.file icons_dir img :: fs) icons_dir = true := by
    simp [path_exists, entryName]
  refine ⟨h1, ?_, ?_, ?_⟩
  · simp [ensure_icons_dir, h1]
  · intro h
    simp [ensure_icons_dir, h]
  · intro h
    simp [ensure_icons_dir, h]

/-- C10, witness: the exists-check semantics at a file named `icons` on an
otherwise empty filesystem, and creation attempted on the empty filesystem. -/
theorem exists_check_semantics_witness :
    ensure_icons_dir [Entry.file icons_dir (create_icon 1)] =
      Except.ok [Entry.file icons_dir (create_icon 1)] ∧
    ensure_icons_dir [] = makedirs [] icons_dir :=
  ⟨(exists_check_semantics [] (create_icon 1)).2.1,
   (exists_check_semantics [] (create_icon 1)).2.2.1 rfl⟩

end GenIcons
